import Mathlib

set_option maxHeartbeats 1000000
set_option maxRecDepth 4000

/-
Shallow embedding of the optimal-systems/data pipeline.

The repository harvests store and product data from two retail sites
(ahorramas, carrefour) and promotes it through a raw → staging → production
warehouse.  The definitions below are translated from the Python / SQL source:

  * src/utils/content.py, src/utils/redis.py  — fetch cache gateway
  * src/ahorramas/extract.py                  — paginated extractor, count parser
  * src/ahorramas/load.py                     — ahorramas raw ingestion
  * src/carrefour/extract.py                  — carrefour store extraction
  * src/carrefour/load.py                     — carrefour raw / staging / prod loads

External effects are made explicit: the Postgres state is a map from table
name to rows, the redis cache is a map from key to hash fields, the network
is an oracle from attempt number to a result, and SQL statements that can
raise are modelled in `Except`.
-/

/-- An exact decimal value num / 10^scale, the value form shared by the
decimal literals Python float() reads in this repository's data and by the
Postgres DECIMAL columns of the staging and production tiers.  (Rat is avoided
because its normalization does not reduce inside the kernel; DecVal keeps
every proof obligation decidable.) -/
structure DecVal where
  num : Int
  scale : Nat
deriving DecidableEq

namespace DecVal

/-- The decimal value of an integer. -/
def ofInt (n : Int) : DecVal := ⟨n, 0⟩

/-- Numeric order on decimal values: a/10^sa ≤ b/10^sb. -/
def le (a b : DecVal) : Prop := a.num * 10 ^ b.scale ≤ b.num * 10 ^ a.scale

instance : DecidableRel le := fun _ _ => Int.decLe _ _

/-- Numeric negation. -/
def neg (a : DecVal) : DecVal := ⟨-a.num, a.scale⟩

end DecVal

namespace PyStr

/-- Python str.strip(): drop whitespace from both ends of a string. -/
def strip (s : String) : String :=
  String.mk (((s.toList.dropWhile Char.isWhitespace).reverse.dropWhile Char.isWhitespace).reverse)

/-- Value of a digit string, as Python int() / Postgres numeric digits give it. -/
def natOfDigits (cs : List Char) : Nat :=
  cs.foldl (fun n c => 10 * n + (c.toNat - 48)) 0

/-- Unsigned decimal literal body: only digits and dots, at most one dot,
at least one digit.  This is the common core of Python float() literals and
Postgres numeric input (exponent, inf and nan forms never occur in this
repository's guarded data and are not modelled). -/
def decimalCoreValid (cs : List Char) : Bool :=
  cs.all (fun c => c.isDigit || c == '.') &&
    decide ((cs.filter (fun c => c == '.')).length ≤ 1) &&
    cs.any Char.isDigit

/-- Exact value of a valid unsigned decimal literal body:
intdigits.fracdigits as (intdigits * 10^fraclen + fracdigits) / 10^fraclen. -/
def decValOfCore (cs : List Char) : DecVal :=
  let intPart := cs.takeWhile (fun c => c ≠ '.')
  let fracPart := (cs.dropWhile (fun c => c ≠ '.')).drop 1
  ⟨(natOfDigits intPart * 10 ^ fracPart.length + natOfDigits fracPart : Nat), fracPart.length⟩

/-- Parse an unsigned decimal literal body, failing on invalid input. -/
def decimalCore? (cs : List Char) : Option DecVal :=
  if decimalCoreValid cs then some (decValOfCore cs) else none

/-- Python float(s) on plain decimal literals: optional surrounding whitespace,
optional sign, digits with at most one dot.  Returns none where float() raises
ValueError. -/
def pyFloat? (s : String) : Option DecVal :=
  match (strip s).toList with
  | '+' :: rest => decimalCore? rest
  | '-' :: rest => (decimalCore? rest).map DecVal.neg
  | cs => decimalCore? cs

/-- Postgres numeric input syntax for the strings that can pass the staging
guard patterns: optional leading sign, then digits with at most one dot.
Returns none where CAST(s AS DECIMAL) raises invalid input syntax. -/
def pgNumeric? (s : String) : Option DecVal :=
  match s.toList with
  | '+' :: rest => decimalCore? rest
  | '-' :: rest => (decimalCore? rest).map DecVal.neg
  | cs => decimalCore? cs

end PyStr

namespace Utils

/-! Fetch cache gateway: src/utils/content.py and src/utils/redis.py.
The MD5 digest (hash_md5) and BeautifulSoup prettify are opaque string
transforms and enter as function parameters; urlencode's percent quoting of a
single component likewise enters as the parameter q. -/

/-- Order used by Python sorted() on (key, value) string pairs:
lexicographic comparison, first component first. -/
def pairLe (a b : String × String) : Prop :=
  a.1 < b.1 ∨ (a.1 = b.1 ∧ a.2 ≤ b.2)

instance : DecidableRel pairLe := fun a b => by
  unfold pairLe; infer_instance

instance : IsTotal (String × String) pairLe := ⟨by
  intro a b
  rcases lt_trichotomy a.1 b.1 with h | h | h
  · exact Or.inl (Or.inl h)
  · rcases le_total a.2 b.2 with h2 | h2
    · exact Or.inl (Or.inr ⟨h, h2⟩)
    · exact Or.inr (Or.inr ⟨h.symm, h2⟩)
  · exact Or.inr (Or.inl h)⟩

instance : IsTrans (String × String) pairLe := ⟨by
  intro a b c hab hbc
  rcases hab with h1 | ⟨e1, l1⟩ <;> rcases hbc with h2 | ⟨e2, l2⟩
  · exact Or.inl (lt_trans h1 h2)
  · exact Or.inl (lt_of_lt_of_le h1 e2.le)
  · exact Or.inl (lt_of_le_of_lt e1.le h2)
  · exact Or.inr ⟨e1.trans e2, le_trans l1 l2⟩⟩

instance : IsAntisymm (String × String) pairLe := ⟨by
  intro a b hab hba
  rcases hab with h1 | ⟨e1, l1⟩
  · rcases hba with h2 | ⟨e2, l2⟩
    · exact absurd h2 (lt_asymm h1)
    · rw [e2] at h1; exact absurd h1 (lt_irrefl _)
  · rcases hba with h2 | ⟨e2, l2⟩
    · rw [e1] at h2; exact absurd h2 (lt_irrefl _)
    · exact Prod.ext_iff.mpr ⟨e1, le_antisymm l1 l2⟩⟩

/-- urlencode over an already sorted pair list: ampersand-joined k=v fragments,
each component quoted by q. -/
def urlencodePairs (q : String → String) (ps : List (String × String)) : String :=
  String.intercalate "&" (ps.map (fun p => q p.1 ++ "=" ++ q p.2))

/-- Translation of _build_full_url (src/utils/content.py lines 15-24): empty
params return the url unchanged, otherwise the params are sorted and appended
as a querystring.  Values are already str()-converted. -/
def build_full_url (q : String → String) (url : String) (params : List (String × String)) : String :=
  if params.isEmpty then url
  else url ++ "?" ++ urlencodePairs q (List.insertionSort pairLe params)

/-- Cache key of a request, as computed in fetch_html_content:
"urls:" prefixed digest of the canonical full url. -/
def redisKeyOf (q md5 : String → String) (url : String) (params : List (String × String)) : String :=
  "urls:" ++ md5 (build_full_url q url params)

/-- Redis hash field lookup, as dict.get on hgetall's result. -/
def getField (fields : List (String × String)) (k : String) : Option String :=
  (fields.find? (fun p => decide (p.1 = k))).map (fun p => p.2)

/-- Set one hash field, keeping the others (fields of a redis hash are
unique, so updating the first occurrence is the hash update). -/
def setField : List (String × String) → String → String → List (String × String)
  | [], k, v => [(k, v)]
  | (k2, v2) :: rest, k, v =>
    if k2 = k then (k, v) :: rest else (k2, v2) :: setField rest k v

/-- State of the redis cache: key to stored hash fields, none when absent. -/
abbrev Cache : Type := String → Option (List (String × String))

/-- Redis HSET with a field mapping: updates the named fields of the entry,
creating it when absent. -/
def hset (cache : Cache) (key : String) (mapping : List (String × String)) : Cache :=
  fun k =>
    if k = key then some (mapping.foldl (fun acc p => setField acc p.1 p.2) ((cache key).getD []))
    else cache k

/-- Outcome of one requests.get attempt. -/
inductive NetResult where
  | ok (body : String)
  | netTimeout
  | reqError
  | fatal (msg : String)
deriving DecidableEq

/-- The retry loop of fetch_html_content (src/utils/content.py lines 67-110):
walks attempts 0, 1, ... while the budget lasts; a success prettifies the body,
stores {url, html} under the cache key and returns; timeouts and request errors
retry; any other error raises at once; an exhausted budget raises.  The Nat
component counts the network calls performed. -/
def fetch_attempts (prettify : String → String) (net : Nat → NetResult)
    (fullUrl redisKey : String) (cache : Cache) :
    Nat → Nat → Except String (String × Cache) × Nat
  | _, 0 => (.error "Max retries reached. Failed to access page.", 0)
  | attempt, rem + 1 =>
    match net attempt with
    | .ok body =>
        let pretty := prettify body
        (.ok (pretty, hset cache redisKey [("url", fullUrl), ("html", pretty)]), 1)
    | .netTimeout =>
        let r := fetch_attempts prettify net fullUrl redisKey cache (attempt + 1) rem
        (r.1, r.2 + 1)
    | .reqError =>
        let r := fetch_attempts prettify net fullUrl redisKey cache (attempt + 1) rem
        (r.1, r.2 + 1)
    | .fatal msg => (.error ("An unexpected error occurred: " ++ msg), 1)

/-- Translation of fetch_html_content (src/utils/content.py lines 27-110).
When the cache key exists and its html field is non-empty the cached value is
returned with no network call; otherwise the retry loop runs.  Returns the
content and the resulting cache state, plus the number of network calls. -/
def fetch_html_content (q md5 prettify : String → String) (net : Nat → NetResult)
    (url : String) (params : List (String × String)) (retries : Nat) (cache : Cache) :
    Except String (String × Cache) × Nat :=
  let fullUrl := build_full_url q url params
  let redisKey := "urls:" ++ md5 fullUrl
  match cache redisKey with
  | some fields =>
    match getField fields "html" with
    | some h =>
        if h ≠ "" then (.ok (h, cache), 0)
        else fetch_attempts prettify net fullUrl redisKey cache 0 retries
    | none => fetch_attempts prettify net fullUrl redisKey cache 0 retries
  | none => fetch_attempts prettify net fullUrl redisKey cache 0 retries

end Utils

namespace Warehouse

/-- A raw tier row: the str()-converted cell values, NULL kept as none. -/
abbrev RawRow := List (Option String)

/-- The raw schema: table name to its rows, none when the table is absent. -/
abbrev RawDb : Type := String → Option (List RawRow)

/-- DROP TABLE IF EXISTS t. -/
def dropTableIfExists (t : String) (db : RawDb) : RawDb :=
  fun x => if x = t then none else db x

/-- CREATE TABLE t: a fresh empty table. -/
def createTable (t : String) (db : RawDb) : RawDb :=
  fun x => if x = t then some [] else db x

/-- CREATE TABLE IF NOT EXISTS t: an existing table and its rows survive. -/
def createTableIfNotExists (t : String) (db : RawDb) : RawDb :=
  fun x => if x = t then some ((db t).getD []) else db x

/-- INSERT INTO t VALUES (r): appends one row. -/
def insertRow (t : String) (r : RawRow) (db : RawDb) : RawDb :=
  fun x => if x = t then some (((db t).getD []) ++ [r]) else db x

end Warehouse

namespace Ahorramas

/-- Translation of get_category_total_size's text handling
(src/ahorramas/extract.py lines 239-268): take the first space-delimited token
of the counter text, delete every non-digit character from it (re.sub of the
non-digit class), and read the remaining digits as an integer; an empty digit
string yields 0. -/
def get_category_total_size (text : String) : Nat :=
  let firstToken := text.toList.takeWhile (fun c => c ≠ ' ')
  let digits := firstToken.filter Char.isDigit
  if digits.isEmpty then 0 else PyStr.natOfDigits digits

/-- The chunk bound of extract_products (CHUNK_SIZE = 100 in the source). -/
abbrev CHUNK_SIZE : Nat := 100

/-- The body of the pagination loop of extract_products
(src/ahorramas/extract.py lines 308-393), abstracted over the per-chunk
fetch-and-parse (the Search-UpdateGrid request plus the div.product parsing),
which maps a (start, size) pair to the records of that chunk.  Returns the
list of chunk fetches performed, as (start, size) pairs, together with all
accumulated records.  A chunk that parses to zero records stops the loop,
returning what was accumulated.  The first argument is recursion fuel: every
iteration of the while loop lowers remaining by at least one, so running with
fuel = remaining computes the whole loop (the fuel-exhausted case is
unreachable from extract_products_loop below); structural fuel keeps the
definition kernel-computable. -/
def extract_products_fuel {α : Type} (parseChunk : Nat → Nat → List α) :
    Nat → Nat → Nat → List (Nat × Nat) × List α
  | 0, _, _ => ([], [])
  | fuel + 1, start, remaining =>
    if remaining = 0 then ([], [])
    else
      let sz := if CHUNK_SIZE < remaining then CHUNK_SIZE else remaining
      let recs := parseChunk start sz
      if recs.isEmpty then ([(start, sz)], recs)
      else
        let rest := extract_products_fuel parseChunk fuel (start + sz) (remaining - sz)
        ((start, sz) :: rest.1, recs ++ rest.2)

/-- The pagination loop of extract_products, entered at a state of the while
loop: offset start with remaining items still to request. -/
def extract_products_loop {α : Type} (parseChunk : Nat → Nat → List α)
    (start remaining : Nat) : List (Nat × Nat) × List α :=
  extract_products_fuel parseChunk remaining start remaining

/-- extract_products after the total size has been resolved: the pagination
loop started at offset 0 with the advertised total as the remaining count. -/
def extract_products {α : Type} (parseChunk : Nat → Nat → List α) (total_size : Nat) :
    List (Nat × Nat) × List α :=
  extract_products_loop parseChunk 0 total_size

/-- The chunk schedule the specification describes: ceil(n/100) fetches at
offsets 0, 100, 200, ..., each of size 100 except the last, which requests
n mod 100 when that is non-zero. -/
def specChunkPlan (n : Nat) : List (Nat × Nat) :=
  (List.range ((n + 99) / 100)).map (fun i =>
    (100 * i, if i + 1 = (n + 99) / 100 ∧ n % 100 ≠ 0 then n % 100 else 100))

/-- One store object of the ahorramas Stores-FindStore payload, with the
fields extract_supermarkets reads. -/
structure Store where
  codtda : String
  direccion : String
  horario : String
  festivos : String
  latitude : DecVal
  longitude : DecVal
deriving DecidableEq

/-- One row of the DataFrame built by ahorramas extract_supermarkets. -/
structure StoreItem where
  store_id : String
  address : String
  schedule : String
  holidays : String
  latitude : DecVal
  longitude : DecVal
deriving DecidableEq

/-- Translation of ahorramas extract_supermarkets (src/ahorramas/extract.py
lines 55-82): every store of the payload is mapped field-for-field into an
item; no validation or filtering of any kind is applied. -/
def extract_supermarkets (stores : List Store) : List StoreItem :=
  stores.map (fun s =>
    { store_id := s.codtda, address := s.direccion, schedule := s.horario,
      holidays := s.festivos, latitude := s.latitude, longitude := s.longitude })

open Warehouse in
/-- Translation of ahorramas load_raw_data_to_postgres (src/ahorramas/load.py
lines 35-93): CREATE TABLE IF NOT EXISTS, then insert the rows one by one.
The table name is raw_supermarket_YYYYMMDD computed from the current date;
the date enters through the tableName argument. -/
def load_raw_data_to_postgres (tableName : String) (data : List RawRow) (db : RawDb) : RawDb :=
  data.foldl (fun acc r => insertRow tableName r acc) (createTableIfNotExists tableName db)

end Ahorramas

namespace Carrefour

/-- One <marker .../> node of locations.xml, with the attributes
extract_supermarkets reads (absent attribute = none). -/
structure Marker where
  lat : Option String
  lng : Option String
  codsa : Option String
  codat : Option String
  tcm : Option String
  idAttr : Option String
  address : Option String
  address2 : Option String
  postal : Option String
  city : Option String
  state : Option String
  hours1 : Option String
  hours2 : Option String
  name : Option String
  category : Option String
deriving DecidableEq

/-- One row of the DataFrame built by carrefour extract_supermarkets.  The
source re-serializes the parsed coordinates with str(); here they are kept as
their numeric values. -/
structure StoreItem where
  store_id : String
  address : String
  schedule : String
  holidays : String
  latitude : DecVal
  longitude : DecVal
  name : String
  category : String
deriving DecidableEq

/-- Python or-chain over optional strings: first value that is truthy
(present and non-empty), else the empty string. -/
def firstTruthy : List (Option String) → String
  | [] => ""
  | some s :: rest => if s = "" then firstTruthy rest else s
  | none :: rest => firstTruthy rest

/-- join_addr of extract_supermarkets: comma-join the stripped parts that are
present and non-blank. -/
def joinAddr (parts : List (Option String)) : String :=
  String.intercalate ", " ((parts.map (fun p => PyStr.strip (p.getD ""))).filter (fun s => s ≠ ""))

/-- Deduplication by store_id with recursion fuel: filtering never lengthens
the list, so fuel = length runs to completion.  Structural fuel keeps the
definition kernel-computable. -/
def uniqueByStoreIdFuel : Nat → List StoreItem → List StoreItem
  | 0, _ => []
  | _, [] => []
  | fuel + 1, x :: xs => x :: uniqueByStoreIdFuel fuel (xs.filter (fun y => y.store_id ≠ x.store_id))

/-- Deduplication by store_id, modelling df.unique(subset=["store_id"]):
one row is kept per store_id value (the first occurrence here). -/
def uniqueByStoreId (l : List StoreItem) : List StoreItem :=
  uniqueByStoreIdFuel l.length l

/-- Translation of carrefour extract_supermarkets (src/carrefour/extract.py
lines 41-128).  Markers without coordinates are skipped; coordinates are parsed
with float(), a parse failure skips the marker; coordinates outside
[-90, 90] x [-180, 180] skip the marker; the store id falls back to the
formatted coordinate pair (the "%.5f,%.5f" rendering enters as the parameter
fmtCoord); finally rows are deduplicated by store_id. -/
def extract_supermarkets (fmtCoord : DecVal → DecVal → String) (markers : List Marker) :
    List StoreItem :=
  uniqueByStoreId (markers.filterMap (fun m =>
    let lat := PyStr.strip ((m.lat).getD "")
    let lng := PyStr.strip ((m.lng).getD "")
    if lat = "" ∨ lng = "" then none
    else
      match PyStr.pyFloat? lat, PyStr.pyFloat? lng with
      | some latF, some lngF =>
        if DecVal.le (DecVal.ofInt (-90)) latF ∧ DecVal.le latF (DecVal.ofInt 90) ∧
            DecVal.le (DecVal.ofInt (-180)) lngF ∧ DecVal.le lngF (DecVal.ofInt 180) then
          let sid := PyStr.strip (firstTruthy [m.codsa, m.codat, m.tcm, m.idAttr])
          let hours1 := PyStr.strip ((m.hours1).getD "")
          let hours2 := PyStr.strip ((m.hours2).getD "")
          some { store_id := if sid = "" then fmtCoord latF lngF else sid,
                 address := joinAddr [m.address, m.address2, m.postal, m.city, m.state],
                 schedule := String.intercalate " | " ([hours1, hours2].filter (fun x => x ≠ "")),
                 holidays := "",
                 latitude := latF,
                 longitude := lngF,
                 name := PyStr.strip ((m.name).getD ""),
                 category := PyStr.strip ((m.category).getD "") }
        else none
      | _, _ => none))

open Warehouse in
/-- Translation of carrefour load_raw_data_to_postgres (src/carrefour/load.py
lines 34-97): DROP TABLE IF EXISTS, CREATE TABLE, then insert the rows one by
one.  The table name is raw.supermarket_YYYYMMDD computed from the current
date; the date enters through the tableName argument. -/
def load_raw_data_to_postgres (tableName : String) (data : List RawRow) (db : RawDb) : RawDb :=
  data.foldl (fun acc r => insertRow tableName r acc)
    (createTable tableName (dropTableIfExists tableName db))

/-- The guard pattern of the latitude / longitude casts in
load_staging_data_from_raw: the Postgres regex match s ~ '^[0-9.-]+$'. -/
def matchesLatLngPattern (s : String) : Bool :=
  !s.toList.isEmpty && s.toList.all (fun c => c.isDigit || c == '.' || c == '-')

/-- The guard pattern of the price cast in load_staging_products_from_raw:
the Postgres regex match s ~ '^[0-9.]+$'. -/
def matchesPricePattern (s : String) : Bool :=
  !s.toList.isEmpty && s.toList.all (fun c => c.isDigit || c == '.')

/-- One guarded cast column of the staging inserts:
CASE WHEN col ~ pattern THEN CAST(col AS DECIMAL(p, s)) ELSE NULL END.
A NULL column or a non-matching value yields NULL; a matching value is handed
to the numeric cast, which raises (Except.error) on input the numeric type
cannot read.  (The DECIMAL precision overflow path is not modelled; no claim
exercises it.) -/
def castGuarded (pattern : String → Bool) (v : Option String) : Except String (Option DecVal) :=
  match v with
  | none => .ok none
  | some s =>
    if pattern s then
      match PyStr.pgNumeric? s with
      | some q => .ok (some q)
      | none => .error "invalid input syntax for type numeric"
    else .ok none

/-- One row of a raw.supermarket_YYYYMMDD table as read by the staging insert. -/
structure RawSupermarketRow where
  store_id : Option String
  address : Option String
  schedule : Option String
  holidays : Option String
  latitude : Option String
  longitude : Option String
deriving DecidableEq

/-- One row of staging.supermarkets. -/
structure StagingSupermarketRow where
  store_id : String
  address : String
  schedule : String
  holidays : String
  latitude : Option DecVal
  longitude : Option DecVal
  extracted_date : String
  name : String
deriving DecidableEq

/-- The SELECT of the staging insert of load_staging_data_from_raw applied to
one raw row: COALESCE text columns to the empty string, cast the coordinates
behind the guard pattern, stamp the extraction date and the source name
'carrefour'. -/
def castSupermarketRow (extractedDate : String) (r : RawSupermarketRow) :
    Except String StagingSupermarketRow := do
  let lat ← castGuarded matchesLatLngPattern r.latitude
  let lng ← castGuarded matchesLatLngPattern r.longitude
  pure { store_id := r.store_id.getD "", address := r.address.getD "",
         schedule := r.schedule.getD "", holidays := r.holidays.getD "",
         latitude := lat, longitude := lng,
         extracted_date := extractedDate, name := "carrefour" }

/-- Translation of load_staging_data_from_raw (src/carrefour/load.py lines
203-266), after the create-if-absent DDL: DELETE FROM staging.supermarkets
WHERE extracted_date = date AND name = 'carrefour', then insert the casted
raw rows.  The staging table is the row list; a failing cast fails the step. -/
def load_staging_data_from_raw (extractedDate : String) (raw : List RawSupermarketRow)
    (table : List StagingSupermarketRow) : Except String (List StagingSupermarketRow) := do
  let kept := table.filter (fun r => !(r.extracted_date = extractedDate && r.name = "carrefour"))
  let inserted ← raw.mapM (castSupermarketRow extractedDate)
  pure (kept ++ inserted)

/-- One row of a raw.products_YYYYMMDD table as read by the products staging
insert (the columns the SELECT names: coupon, price, item_variant, item_name). -/
structure RawProductRow where
  coupon : Option String
  price : Option String
  item_variant : Option String
  item_name : Option String
deriving DecidableEq

/-- One row of staging.products. -/
structure StagingProductRow where
  discount_value : String
  price : Option DecVal
  price_per_unit : String
  name : String
  image : String
  url : String
  supermarket : String
  extracted_date : String
deriving DecidableEq

/-- The SELECT of the staging insert of load_staging_products_from_raw applied
to one raw row. -/
def castProductRow (extractedDate : String) (r : RawProductRow) :
    Except String StagingProductRow := do
  let p ← castGuarded matchesPricePattern r.price
  pure { discount_value := r.coupon.getD "", price := p,
         price_per_unit := r.item_variant.getD "", name := r.item_name.getD "",
         image := "", url := "", supermarket := "carrefour",
         extracted_date := extractedDate }

/-- Translation of load_staging_products_from_raw (src/carrefour/load.py lines
493-555), after the create-if-absent DDL: DELETE FROM staging.products
WHERE extracted_date = date — with no supermarket filter — then insert the
casted raw rows. -/
def load_staging_products_from_raw (extractedDate : String) (raw : List RawProductRow)
    (table : List StagingProductRow) : Except String (List StagingProductRow) := do
  let kept := table.filter (fun r => !(r.extracted_date = extractedDate))
  let inserted ← raw.mapM (castProductRow extractedDate)
  pure (kept ++ inserted)

/-- One row of prod.supermarkets, restricted to the columns the upsert of
load_prod_data_from_staging touches (timestamps are not modelled). -/
structure ProdSupermarketRow where
  store_id : Option String
  address : String
  schedule : String
  holidays : String
  latitude : Option DecVal
  longitude : Option DecVal
  extracted_date : String
  name : String
deriving DecidableEq

/-- The conflict-target tuple of a row: the columns the upsert's ON CONFLICT
clause names, (latitude, longitude, extracted_date, name)
(src/carrefour/load.py line 312).  This is not the unique constraint the
table actually carries — see prodSupermarketsUniqueConstraints. -/
def prodKey (r : ProdSupermarketRow) : Option DecVal × Option DecVal × String × String :=
  (r.latitude, r.longitude, r.extracted_date, r.name)

/-- The DO UPDATE SET clause of the upsert in load_prod_data_from_staging
(src/carrefour/load.py lines 302-318): the mutable fields take the incoming
(EXCLUDED) values and the store id is coalesced, COALESCE(EXCLUDED.store_id,
prod.supermarkets.store_id); every other column of the stored row is kept. -/
def onConflictUpdate (old incoming : ProdSupermarketRow) : ProdSupermarketRow :=
  { old with
    address := incoming.address
    schedule := incoming.schedule
    holidays := incoming.holidays
    store_id := match incoming.store_id with
      | some v => some v
      | none => old.store_id }

/-- The insert-or-merge written in the upsert's text: on a conflict-target
match the stored row is updated by the DO UPDATE SET clause, otherwise the
row is inserted.  This behavior only runs if Postgres accepts the ON CONFLICT
clause in the first place — see upsert_prod_supermarkets. -/
def upsertProdSupermarket (table : List ProdSupermarketRow) (incoming : ProdSupermarketRow) :
    List ProdSupermarketRow :=
  if table.any (fun r => decide (prodKey r = prodKey incoming)) then
    table.map (fun r => if prodKey r = prodKey incoming then onConflictUpdate r incoming else r)
  else table ++ [incoming]

/-- The unique constraints carried by prod.supermarkets: the DDL that
load_prod_data_from_staging itself runs first (create_prod_supermarkets_table,
src/carrefour/load.py lines 173-187) adds exactly one,
UNIQUE (store_id, extracted_date, name), and every index it creates is
non-unique. -/
def prodSupermarketsUniqueConstraints : List (List String) :=
  [["store_id", "extracted_date", "name"]]

/-- The column list named by the upsert's ON CONFLICT clause
(src/carrefour/load.py line 312). -/
def onConflictTarget : List String :=
  ["latitude", "longitude", "extracted_date", "name"]

/-- Postgres arbiter inference for ON CONFLICT (cols): the statement is
accepted only when some unique or exclusion constraint covers exactly the
conflict-target columns as a column set; otherwise the statement raises
error 42P10 before touching any row. -/
def arbiterMatches (target : List String) (constraints : List (List String)) : Bool :=
  constraints.any (fun c =>
    c.all (fun x => target.contains x) && target.all (fun x => c.contains x))

/-- Translation of the upsert statement of load_prod_data_from_staging
(src/carrefour/load.py lines 302-320) for one incoming row: Postgres first
infers the arbiter index for the ON CONFLICT target; only when a unique
constraint of the table matches it does the insert-or-merge of
upsertProdSupermarket execute, otherwise the whole statement raises 42P10. -/
def upsert_prod_supermarkets (table : List ProdSupermarketRow) (incoming : ProdSupermarketRow) :
    Except String (List ProdSupermarketRow) :=
  if arbiterMatches onConflictTarget prodSupermarketsUniqueConstraints then
    .ok (upsertProdSupermarket table incoming)
  else
    .error "42P10: there is no unique or exclusion constraint matching the ON CONFLICT specification"

end Carrefour

/-! Helper lemmas about the raw tier. -/

namespace Warehouse

/-- Inserting a list of rows into an existing table appends them to it. -/
theorem foldl_insertRow_self (t : String) :
    ∀ (rows : List RawRow) (db : RawDb) (xs : List RawRow), db t = some xs →
      (rows.foldl (fun acc r => insertRow t r acc) db) t = some (xs ++ rows) := by
  intro rows
  induction rows with
  | nil => intro db xs h; simpa using h
  | cons r rest ih =>
    intro db xs h
    have hstep : (insertRow t r db) t = some (xs ++ [r]) := by
      simp [insertRow, h]
    simpa using ih (insertRow t r db) (xs ++ [r]) hstep

/-- Inserting rows into one table leaves every other table unchanged. -/
theorem foldl_insertRow_ne (t x : String) (hx : x ≠ t) :
    ∀ (rows : List RawRow) (db : RawDb),
      (rows.foldl (fun acc r => insertRow t r acc) db) x = db x := by
  intro rows
  induction rows with
  | nil => intro db; rfl
  | cons r rest ih =>
    intro db
    have : (insertRow t r db) x = db x := by simp [insertRow, hx]
    rw [List.foldl_cons, ih (insertRow t r db), this]

end Warehouse

/-- The carrefour raw load leaves the target table holding exactly the input
rows, and every other table unchanged. -/
theorem carrefour_raw_run_eq (t : String) (data : List Warehouse.RawRow) (db : Warehouse.RawDb) :
    ∀ x, Carrefour.load_raw_data_to_postgres t data db x
      = if x = t then some data else db x := by
  intro x
  by_cases hx : x = t
  · subst hx
    have hcreate : (Warehouse.createTable x (Warehouse.dropTableIfExists x db)) x = some [] := by
      simp [Warehouse.createTable]
    simpa [Carrefour.load_raw_data_to_postgres]
      using Warehouse.foldl_insertRow_self x data _ [] hcreate
  · have hframe := Warehouse.foldl_insertRow_ne t x hx data
      (Warehouse.createTable t (Warehouse.dropTableIfExists t db))
    simp [Carrefour.load_raw_data_to_postgres, hframe,
      Warehouse.createTable, Warehouse.dropTableIfExists, hx]

/-- The ahorramas raw load appends the input rows to whatever the target
table already holds. -/
theorem ahorramas_raw_run_eq (t : String) (data : List Warehouse.RawRow) (db : Warehouse.RawDb) :
    Ahorramas.load_raw_data_to_postgres t data db t = some (((db t).getD []) ++ data) := by
  have hcreate : (Warehouse.createTableIfNotExists t db) t = some ((db t).getD []) := by
    simp [Warehouse.createTableIfNotExists]
  simpa [Ahorramas.load_raw_data_to_postgres]
    using Warehouse.foldl_insertRow_self t data _ _ hcreate

/-- C1, corrected.  The carrefour load_raw_data_to_postgres drops and
recreates the raw table before inserting, so the composition of two identical
runs equals one run (full replace, idempotent at the date).  The ahorramas
load_raw_data_to_postgres instead creates the table only if absent and then
inserts, so a second identical run appends the rows a second time. -/
theorem raw_ingestion_replace_vs_append (t : String) (data : List Warehouse.RawRow)
    (db : Warehouse.RawDb) :
    Carrefour.load_raw_data_to_postgres t data (Carrefour.load_raw_data_to_postgres t data db)
      = Carrefour.load_raw_data_to_postgres t data db
    ∧ Ahorramas.load_raw_data_to_postgres t data
        (Ahorramas.load_raw_data_to_postgres t data db) t
      = some (((db t).getD []) ++ data ++ data) := by
  constructor
  · funext x
    rw [carrefour_raw_run_eq t data (Carrefour.load_raw_data_to_postgres t data db) x,
      carrefour_raw_run_eq t data db x]
    by_cases hx : x = t
    · simp [hx]
    · simp [hx, carrefour_raw_run_eq t data db x]
  · rw [ahorramas_raw_run_eq t data (Ahorramas.load_raw_data_to_postgres t data db),
      ahorramas_raw_run_eq t data db]
    simp

/-- C1, counterexample to the claim as stated: for the ahorramas variant,
running raw ingestion twice with a single input row leaves the raw table with
the row twice, not the row set of a single run. -/
theorem raw_ingestion_not_always_replace :
    Ahorramas.load_raw_data_to_postgres "raw_supermarket_20250101" [[some "40.5"]]
        (Ahorramas.load_raw_data_to_postgres "raw_supermarket_20250101" [[some "40.5"]]
          (fun _ => none)) "raw_supermarket_20250101"
      ≠ Ahorramas.load_raw_data_to_postgres "raw_supermarket_20250101" [[some "40.5"]]
          (fun _ => none) "raw_supermarket_20250101" := by
  decide

/-- C4, confirmed.  At any pagination state with a positive remaining count,
a chunk that parses to zero records halts the loop at that chunk: the fetch is
logged, no records are contributed beyond those already accumulated by earlier
chunks, and the loop returns normally (no error path exists). -/
theorem pagination_early_exit {α : Type} (parseChunk : Nat → Nat → List α)
    (start remaining : Nat) (hpos : 0 < remaining)
    (hempty : parseChunk start
      (if Ahorramas.CHUNK_SIZE < remaining then Ahorramas.CHUNK_SIZE else remaining) = []) :
    Ahorramas.extract_products_loop parseChunk start remaining
      = ([(start, if Ahorramas.CHUNK_SIZE < remaining then Ahorramas.CHUNK_SIZE
                  else remaining)], []) := by
  obtain ⟨k, rfl⟩ : ∃ k, remaining = k + 1 := ⟨remaining - 1, by omega⟩
  unfold Ahorramas.extract_products_loop Ahorramas.extract_products_fuel
  simp [hempty]

/-- C4 witness: a first chunk of an advertised 50 items parsing to zero
records returns the empty accumulation after exactly that one chunk fetch. -/
theorem pagination_early_exit_witness :
    Ahorramas.extract_products_loop (fun _ _ => ([] : List Nat)) 0 50 = ([(0, 50)], []) := by
  have h := pagination_early_exit (fun _ _ => ([] : List Nat)) 0 50 (by decide) rfl
  exact h.trans (by decide)

/-- Helper: the specified chunk schedule of more than one full chunk starts
with a full chunk and continues with the schedule of the rest, shifted. -/
theorem specChunkPlan_cons_of_gt (r : Nat) (h : 100 < r) :
    Ahorramas.specChunkPlan r
      = (0, 100) :: (Ahorramas.specChunkPlan (r - 100)).map (fun p => (100 + p.1, p.2)) := by
  unfold Ahorramas.specChunkPlan
  have hk : (r + 99) / 100 = (r - 100 + 99) / 100 + 1 := by omega
  have hk2 : 1 ≤ (r - 100 + 99) / 100 := by omega
  rw [hk, List.range_succ_eq_map, List.map_cons, List.map_map, List.map_map]
  have hnc : ¬(0 + 1 = (r - 100 + 99) / 100 + 1 ∧ r % 100 ≠ 0) := by omega
  rw [if_neg hnc]
  have h0 : (100 * 0, (100 : Nat)) = ((0 : Nat), (100 : Nat)) := by norm_num
  rw [h0]
  refine congrArg _ (List.map_congr_left ?_)
  intro i _
  simp only [Function.comp]
  have hiff : (i + 1 + 1 = (r - 100 + 99) / 100 + 1 ∧ r % 100 ≠ 0)
      ↔ (i + 1 = (r - 100 + 99) / 100 ∧ (r - 100) % 100 ≠ 0) := by omega
  have hmod : r % 100 = (r - 100) % 100 := by omega
  rw [Prod.ext_iff]
  constructor
  · omega
  · simp only []
    rw [if_congr hiff hmod rfl]

/-- Helper: the specified chunk schedule of a single (possibly partial) chunk. -/
theorem specChunkPlan_single (r : Nat) (h1 : 0 < r) (h2 : r ≤ 100) :
    Ahorramas.specChunkPlan r = [(0, if 100 < r then 100 else r)] := by
  unfold Ahorramas.specChunkPlan
  have hk : (r + 99) / 100 = 1 := by omega
  rw [hk, (by decide : List.range 1 = [0]), List.map_cons, List.map_nil]
  have hout : ¬(100 < r) := by omega
  rw [if_neg hout]
  by_cases hr : r = 100
  · subst hr; norm_num
  · have hmod : r % 100 = r := by omega
    have hcond : (0 + 1 = 1 ∧ r % 100 ≠ 0) := by omega
    rw [if_pos hcond, hmod]

/-- Helper: the specified chunk schedule of zero items is empty. -/
theorem specChunkPlan_zero : Ahorramas.specChunkPlan 0 = [] := by decide

/-- Helper: with every fetched chunk parsing at least one record, the fueled
pagination loop performs exactly the specified chunk schedule, shifted to its
start offset, provided the fuel covers the remaining count. -/
theorem extract_fuel_plan {α : Type} (parseChunk : Nat → Nat → List α)
    (H : ∀ s z, 0 < z → parseChunk s z ≠ []) :
    ∀ (fuel remaining start : Nat), remaining ≤ fuel →
      (Ahorramas.extract_products_fuel parseChunk fuel start remaining).1
        = (Ahorramas.specChunkPlan remaining).map (fun p => (start + p.1, p.2)) := by
  intro fuel
  induction fuel with
  | zero =>
    intro remaining start h
    have h0 : remaining = 0 := by omega
    subst h0
    simp [Ahorramas.extract_products_fuel, specChunkPlan_zero]
  | succ fuel ih =>
    intro remaining start h
    by_cases h0 : remaining = 0
    · subst h0
      simp [Ahorramas.extract_products_fuel, specChunkPlan_zero]
    · have hpos : 0 < remaining := Nat.pos_of_ne_zero h0
      rw [Ahorramas.extract_products_fuel]
      simp only [Ahorramas.CHUNK_SIZE, h0, if_false]
      by_cases hsz : 100 < remaining
      · have hne : parseChunk start 100 ≠ [] := H start 100 (by decide)
        rw [if_pos hsz, if_neg (by simp [hne])]
        rw [specChunkPlan_cons_of_gt remaining hsz, List.map_cons, List.map_map]
        rw [ih (remaining - 100) (start + 100) (by omega)]
        refine congrArg₂ _ (by simp) (List.map_congr_left ?_)
        intro p _
        simp only [Function.comp]
        rw [Prod.ext_iff]
        exact ⟨by omega, rfl⟩
      · have hne : parseChunk start remaining ≠ [] := H start remaining hpos
        rw [if_neg hsz, if_neg (by simp [hne])]
        rw [ih (remaining - remaining) (start + remaining) (by omega)]
        rw [specChunkPlan_single remaining hpos (by omega)]
        simp [Nat.sub_self, specChunkPlan_zero, if_neg hsz]

/-- C3, confirmed.  When every fetched chunk parses at least one record, the
paginated extractor performs exactly ceil(n/100) chunk fetches at offsets
0, 100, 200, ..., each requesting size 100 except the last, which requests
n mod 100 when that is non-zero (the schedule specChunkPlan); and a total of
zero yields an empty result with zero chunk fetches. -/
theorem pagination_chunk_schedule {α : Type} (parseChunk : Nat → Nat → List α)
    (total_size : Nat) (H : ∀ s z, 0 < z → parseChunk s z ≠ []) :
    (Ahorramas.extract_products parseChunk total_size).1
        = Ahorramas.specChunkPlan total_size
    ∧ ((Ahorramas.extract_products parseChunk total_size).1).length
        = (total_size + 99) / 100
    ∧ Ahorramas.extract_products parseChunk 0 = ([], []) := by
  have hmain : (Ahorramas.extract_products parseChunk total_size).1
      = Ahorramas.specChunkPlan total_size := by
    have h := extract_fuel_plan parseChunk H total_size total_size 0 le_rfl
    rw [Ahorramas.extract_products, Ahorramas.extract_products_loop, h]
    have hid : ∀ (l : List (Nat × Nat)), l.map (fun p => (0 + p.1, p.2)) = l := by
      intro l
      induction l with
      | nil => rfl
      | cons a l ihl => simp [ihl]
    exact hid _
  refine ⟨hmain, ?_, rfl⟩
  rw [hmain]
  simp [Ahorramas.specChunkPlan]

/-- C3 witness: with a parser yielding one record per chunk, a total of 250
gives exactly the three fetches (0,100), (100,100), (200,50), and a total of
0 gives no fetches and no records. -/
theorem pagination_chunk_schedule_witness :
    (Ahorramas.extract_products (fun _ _ => [0]) 250).1 = [(0, 100), (100, 100), (200, 50)]
    ∧ Ahorramas.extract_products (fun _ _ => [0]) 0 = ([], []) := by
  have h := pagination_chunk_schedule (fun _ _ => [0]) 250 (fun _ _ _ => by simp)
  exact ⟨h.1.trans (by decide), h.2.2⟩

/-- Helper: sorting by the pair order is invariant under permutation of the
input, because the order is total, transitive and antisymmetric. -/
theorem insertionSort_pairLe_perm_eq (p1 p2 : List (String × String)) (h : p1.Perm p2) :
    List.insertionSort Utils.pairLe p1 = List.insertionSort Utils.pairLe p2 :=
  List.eq_of_perm_of_sorted
    ((List.perm_insertionSort Utils.pairLe p1).trans
      (h.trans (List.perm_insertionSort Utils.pairLe p2).symm))
    (List.sorted_insertionSort Utils.pairLe p1)
    (List.sorted_insertionSort Utils.pairLe p2)

/-- C5, confirmed.  Two parameter dictionaries equal as key-value maps (their
entry lists are permutations of each other) canonicalize to the same full URL,
and therefore to the same cache key, for every URL, component quoting and
digest function. -/
theorem cache_key_deterministic (q md5 : String → String) (url : String)
    (p1 p2 : List (String × String)) (h : p1.Perm p2) :
    Utils.build_full_url q url p1 = Utils.build_full_url q url p2
    ∧ Utils.redisKeyOf q md5 url p1 = Utils.redisKeyOf q md5 url p2 := by
  have hurl : Utils.build_full_url q url p1 = Utils.build_full_url q url p2 := by
    unfold Utils.build_full_url
    have hlen : p1.length = p2.length := h.length_eq
    by_cases he : p1.isEmpty
    · have he2 : p2.isEmpty := by
        simp only [List.isEmpty_iff_length_eq_zero] at he ⊢
        omega
      rw [if_pos he, if_pos he2]
    · have he2 : ¬p2.isEmpty := by
        simp only [List.isEmpty_iff_length_eq_zero] at he ⊢
        omega
      rw [if_neg he, if_neg he2, insertionSort_pairLe_perm_eq p1 p2 h]
  exact ⟨hurl, by unfold Utils.redisKeyOf; rw [hurl]⟩

/-- C5 witness: the two insertion orders of the parameters a=1, b=2 give the
same canonical URL and the same cache key. -/
theorem cache_key_deterministic_witness :
    Utils.build_full_url id "https://x.example/s" [("a", "1"), ("b", "2")]
      = Utils.build_full_url id "https://x.example/s" [("b", "2"), ("a", "1")]
    ∧ Utils.redisKeyOf id id "https://x.example/s" [("a", "1"), ("b", "2")]
      = Utils.redisKeyOf id id "https://x.example/s" [("b", "2"), ("a", "1")] :=
  cache_key_deterministic id id "https://x.example/s" [("a", "1"), ("b", "2")]
    [("b", "2"), ("a", "1")] (by decide)

/-- C2, code_bug evidence.  The upsert of load_prod_data_from_staging names
the conflict target (latitude, longitude, extracted_date, name), but the only
unique constraint its own DDL puts on prod.supermarkets is
(store_id, extracted_date, name), and every index it creates is non-unique:
no arbiter matches the ON CONFLICT specification, so the statement raises
error 42P10 for every table state and every incoming row, and the coalescing
merge the claim describes never executes. -/
theorem prod_upsert_conflict_target_mismatch :
    Carrefour.arbiterMatches Carrefour.onConflictTarget
        Carrefour.prodSupermarketsUniqueConstraints = false
    ∧ ∀ (table : List Carrefour.ProdSupermarketRow)
        (incoming : Carrefour.ProdSupermarketRow),
      Carrefour.upsert_prod_supermarkets table incoming
        = .error "42P10: there is no unique or exclusion constraint matching the ON CONFLICT specification" :=
  ⟨by decide, fun _ _ => rfl⟩

/-- Helper: every element produced by a successful Except-valued mapM comes
from applying the function to some input element. -/
theorem exceptMapM_ok_mem {α β : Type} (f : α → Except String β) :
    ∀ (l : List α) (out : List β), l.mapM f = .ok out →
      ∀ r ∈ out, ∃ a, a ∈ l ∧ f a = .ok r := by
  intro l
  induction l with
  | nil =>
    intro out h r hr
    simp only [List.mapM_nil] at h
    injection h with h
    subst h
    simp at hr
  | cons a as ih =>
    intro out h r hr
    rw [List.mapM_cons] at h
    cases hfa : f a with
    | error e => rw [hfa] at h; exact Except.noConfusion h
    | ok b =>
      rw [hfa] at h
      cases hrest : as.mapM f with
      | error e =>
        rw [hrest] at h
        exact Except.noConfusion h
      | ok bs =>
        rw [hrest] at h
        injection h with h
        subst h
        rcases List.mem_cons.mp hr with hreq | hrtl
        · subst hreq
          exact ⟨a, List.mem_cons_self a as, hfa⟩
        · obtain ⟨a2, ha2, hfa2⟩ := ih bs hrest r hrtl
          exact ⟨a2, List.mem_cons_of_mem a ha2, hfa2⟩

/-- Helper: every row the supermarkets staging insert produces carries the
run's extraction date and the source name carrefour. -/
theorem castSupermarketRow_stamp (d : String) (a : Carrefour.RawSupermarketRow)
    (r : Carrefour.StagingSupermarketRow) (h : Carrefour.castSupermarketRow d a = .ok r) :
    r.extracted_date = d ∧ r.name = "carrefour" := by
  unfold Carrefour.castSupermarketRow at h
  cases hlat : Carrefour.castGuarded Carrefour.matchesLatLngPattern a.latitude with
  | error e => rw [hlat] at h; exact Except.noConfusion h
  | ok lat =>
    rw [hlat] at h
    cases hlng : Carrefour.castGuarded Carrefour.matchesLatLngPattern a.longitude with
    | error e => rw [hlng] at h; exact Except.noConfusion h
    | ok lng =>
      rw [hlng] at h
      injection h with h
      subst h
      exact ⟨rfl, rfl⟩

/-- Helper: every row the products staging insert produces carries the run's
extraction date. -/
theorem castProductRow_stamp (d : String) (a : Carrefour.RawProductRow)
    (r : Carrefour.StagingProductRow) (h : Carrefour.castProductRow d a = .ok r) :
    r.extracted_date = d := by
  unfold Carrefour.castProductRow at h
  cases hp : Carrefour.castGuarded Carrefour.matchesPricePattern a.price with
  | error e => rw [hp] at h; exact Except.noConfusion h
  | ok p =>
    rw [hp] at h
    injection h with h
    subst h
    rfl

/-- C7, corrected.  A successful supermarkets staging run removes exactly the
rows matching (extraction date, source = carrefour) — every other stored row
survives — and re-running it on its own output reproduces that output
(idempotence at the (date, source) grain).  The products staging run instead
deletes by extraction date alone, with no source filter, so it is idempotent
only at the date grain and removes same-date rows of every source. -/
theorem staging_delete_scope :
    (∀ (d : String) (raw : List Carrefour.RawSupermarketRow)
        (table out : List Carrefour.StagingSupermarketRow),
      Carrefour.load_staging_data_from_raw d raw table = .ok out →
      (∃ ins, out = table.filter
            (fun r => !(r.extracted_date = d && r.name = "carrefour")) ++ ins
          ∧ ∀ r ∈ ins, r.extracted_date = d ∧ r.name = "carrefour")
      ∧ Carrefour.load_staging_data_from_raw d raw out = .ok out)
    ∧ (∀ (d : String) (raw : List Carrefour.RawProductRow)
        (table out : List Carrefour.StagingProductRow),
      Carrefour.load_staging_products_from_raw d raw table = .ok out →
      (∃ ins, out = table.filter (fun r => !decide (r.extracted_date = d)) ++ ins
          ∧ ∀ r ∈ ins, r.extracted_date = d)
      ∧ Carrefour.load_staging_products_from_raw d raw out = .ok out) := by
  constructor
  · intro d raw table out h
    unfold Carrefour.load_staging_data_from_raw at h ⊢
    cases hm : raw.mapM (Carrefour.castSupermarketRow d) with
    | error e => rw [hm] at h; exact Except.noConfusion h
    | ok ins =>
      rw [hm] at h
      injection h with h
      have hstamp : ∀ r ∈ ins, r.extracted_date = d ∧ r.name = "carrefour" := by
        intro r hr
        obtain ⟨a, _, hfa⟩ := exceptMapM_ok_mem (Carrefour.castSupermarketRow d) raw ins hm r hr
        exact castSupermarketRow_stamp d a r hfa
      constructor
      · exact ⟨ins, h.symm, hstamp⟩
      · have hfk : out.filter (fun r => !(r.extracted_date = d && r.name = "carrefour"))
            = table.filter (fun r => !(r.extracted_date = d && r.name = "carrefour")) := by
          rw [← h, List.filter_append]
          have h1 : (table.filter
                (fun r => !(r.extracted_date = d && r.name = "carrefour"))).filter
                (fun r => !(r.extracted_date = d && r.name = "carrefour"))
              = table.filter (fun r => !(r.extracted_date = d && r.name = "carrefour")) := by
            apply List.filter_eq_self.mpr
            intro r hr
            exact (List.mem_filter.mp hr).2
          have h2 : ins.filter (fun r => !(r.extracted_date = d && r.name = "carrefour"))
              = [] := by
            apply List.filter_eq_nil_iff.mpr
            intro r hr
            obtain ⟨h3, h4⟩ := hstamp r hr
            simp [h3, h4]
          rw [h1, h2, List.append_nil]
        show Except.ok
            (out.filter (fun r => !(r.extracted_date = d && r.name = "carrefour")) ++ ins)
          = Except.ok out
        rw [hfk, h]
  · intro d raw table out h
    unfold Carrefour.load_staging_products_from_raw at h ⊢
    cases hm : raw.mapM (Carrefour.castProductRow d) with
    | error e => rw [hm] at h; exact Except.noConfusion h
    | ok ins =>
      rw [hm] at h
      injection h with h
      have hstamp : ∀ r ∈ ins, r.extracted_date = d := by
        intro r hr
        obtain ⟨a, _, hfa⟩ := exceptMapM_ok_mem (Carrefour.castProductRow d) raw ins hm r hr
        exact castProductRow_stamp d a r hfa
      constructor
      · exact ⟨ins, h.symm, hstamp⟩
      · have hfk : out.filter (fun r => !decide (r.extracted_date = d))
            = table.filter (fun r => !decide (r.extracted_date = d)) := by
          rw [← h, List.filter_append]
          have h1 : (table.filter (fun r => !decide (r.extracted_date = d))).filter
                (fun r => !decide (r.extracted_date = d))
              = table.filter (fun r => !decide (r.extracted_date = d)) := by
            apply List.filter_eq_self.mpr
            intro r hr
            exact (List.mem_filter.mp hr).2
          have h2 : ins.filter (fun r => !decide (r.extracted_date = d)) = [] := by
            apply List.filter_eq_nil_iff.mpr
            intro r hr
            simp [hstamp r hr]
          rw [h1, h2, List.append_nil]
        show Except.ok (out.filter (fun r => !decide (r.extracted_date = d)) ++ ins)
          = Except.ok out
        rw [hfk, h]

/-- C7 witness: a concrete supermarkets staging run over one raw row and a
staging table holding one row of another date re-runs to its own output
unchanged. -/
theorem staging_delete_scope_witness :
    Carrefour.load_staging_data_from_raw "2025-01-01"
        [{ store_id := some "S", address := some "c. Mayor 1", schedule := none,
           holidays := none, latitude := some "40.5", longitude := some "-3.25" }]
        [{ store_id := "T", address := "old", schedule := "", holidays := "",
           latitude := none, longitude := none, extracted_date := "2024-12-31",
           name := "carrefour" },
         { store_id := "S", address := "c. Mayor 1", schedule := "", holidays := "",
           latitude := some ⟨405, 1⟩, longitude := some ⟨-325, 2⟩,
           extracted_date := "2025-01-01", name := "carrefour" }]
      = Except.ok
        [{ store_id := "T", address := "old", schedule := "", holidays := "",
           latitude := none, longitude := none, extracted_date := "2024-12-31",
           name := "carrefour" },
         { store_id := "S", address := "c. Mayor 1", schedule := "", holidays := "",
           latitude := some ⟨405, 1⟩, longitude := some ⟨-325, 2⟩,
           extracted_date := "2025-01-01", name := "carrefour" }] :=
  (staging_delete_scope.1 "2025-01-01"
    [{ store_id := some "S", address := some "c. Mayor 1", schedule := none,
       holidays := none, latitude := some "40.5", longitude := some "-3.25" }]
    [{ store_id := "T", address := "old", schedule := "", holidays := "",
       latitude := none, longitude := none, extracted_date := "2024-12-31",
       name := "carrefour" }]
    [{ store_id := "T", address := "old", schedule := "", holidays := "",
       latitude := none, longitude := none, extracted_date := "2024-12-31",
       name := "carrefour" },
     { store_id := "S", address := "c. Mayor 1", schedule := "", holidays := "",
       latitude := some ⟨405, 1⟩, longitude := some ⟨-325, 2⟩,
       extracted_date := "2025-01-01", name := "carrefour" }]
    rfl).2

/-- C7, counterexample to the claim as stated: the products staging run for
the carrefour source deletes a same-date staging row that belongs to another
source (ahorramas), so the deletion is not restricted to the run's
(date, source) pair. -/
theorem staging_products_cross_source_delete :
    Carrefour.load_staging_products_from_raw "2025-01-01" []
        [{ discount_value := "", price := none, price_per_unit := "", name := "Melon",
           image := "", url := "", supermarket := "ahorramas",
           extracted_date := "2025-01-01" }]
      = Except.ok []
    ∧ ("ahorramas" : String) ≠ "carrefour" := ⟨rfl, by decide⟩

/-- C6, code_bug evidence.  The total-count parser reads only the first
space-delimited token before stripping non-digits: a dot thousands separator
is tolerated ("2.311 Resultados" parses to 2311) but a space thousands
separator — promised by the function's own docstring — is not
("2 311 Resultados" parses to 2, not 2311); text with no digits yields 0. -/
theorem total_count_parser_first_token_only :
    Ahorramas.get_category_total_size "2.311 Resultados" = 2311
    ∧ Ahorramas.get_category_total_size "2 311 Resultados" = 2
    ∧ Ahorramas.get_category_total_size "Resultados" = 0 := by
  refine ⟨?_, ?_, ?_⟩ <;> decide

/-- C9, code_bug evidence.  The staging guard pattern [0-9.-]+ accepts the
string 1.2.3, which is not valid numeric input, so the guarded cast of a raw
latitude 1.2.3 raises instead of storing null, and the whole supermarkets
staging step fails on such a row. -/
theorem staging_cast_can_raise :
    Carrefour.matchesLatLngPattern "1.2.3" = true
    ∧ Carrefour.castGuarded Carrefour.matchesLatLngPattern (some "1.2.3")
        = Except.error "invalid input syntax for type numeric"
    ∧ Carrefour.load_staging_data_from_raw "2025-01-01"
        [{ store_id := some "S", address := none, schedule := none, holidays := none,
           latitude := some "1.2.3", longitude := some "0" }] []
        = Except.error "invalid input syntax for type numeric" :=
  ⟨by decide, rfl, rfl⟩

/-- Helper: deduplication only keeps rows that were present. -/
theorem mem_uniqueByStoreIdFuel :
    ∀ (fuel : Nat) (l : List Carrefour.StoreItem) (r : Carrefour.StoreItem),
      r ∈ Carrefour.uniqueByStoreIdFuel fuel l → r ∈ l := by
  intro fuel
  induction fuel with
  | zero =>
    intro l r h
    simp [Carrefour.uniqueByStoreIdFuel] at h
  | succ fuel ih =>
    intro l r h
    cases l with
    | nil => simp [Carrefour.uniqueByStoreIdFuel] at h
    | cons x xs =>
      rw [Carrefour.uniqueByStoreIdFuel] at h
      rcases List.mem_cons.mp h with h1 | h1
      · exact h1 ▸ List.mem_cons_self x xs
      · exact List.mem_cons_of_mem x (List.mem_of_mem_filter (ih _ r h1))

/-- C8, corrected.  Every store row surviving the carrefour extraction has its
latitude in [-90, 90] and its longitude in [-180, 180] — out-of-range markers
are dropped, not fatally (the function is total).  The ahorramas extraction,
however, applies no geographic validation at all: it keeps exactly one output
row per input store, whatever the coordinates. -/
theorem store_bounds_validation :
    (∀ (fmtCoord : DecVal → DecVal → String) (markers : List Carrefour.Marker)
        (r : Carrefour.StoreItem), r ∈ Carrefour.extract_supermarkets fmtCoord markers →
      DecVal.le (DecVal.ofInt (-90)) r.latitude ∧ DecVal.le r.latitude (DecVal.ofInt 90)
      ∧ DecVal.le (DecVal.ofInt (-180)) r.longitude
      ∧ DecVal.le r.longitude (DecVal.ofInt 180))
    ∧ (∀ stores : List Ahorramas.Store,
        (Ahorramas.extract_supermarkets stores).length = stores.length) := by
  constructor
  · intro fmt markers r hr
    unfold Carrefour.extract_supermarkets at hr
    have hr2 := mem_uniqueByStoreIdFuel _ _ r hr
    obtain ⟨m, _, hf⟩ := List.mem_filterMap.mp hr2
    dsimp only at hf
    by_cases hempty : PyStr.strip ((m.lat).getD "") = "" ∨ PyStr.strip ((m.lng).getD "") = ""
    · rw [if_pos hempty] at hf
      exact Option.noConfusion hf
    · rw [if_neg hempty] at hf
      cases hlat : PyStr.pyFloat? (PyStr.strip ((m.lat).getD "")) with
      | none =>
        cases hlng : PyStr.pyFloat? (PyStr.strip ((m.lng).getD "")) with
        | none => rw [hlat, hlng] at hf; exact Option.noConfusion hf
        | some lngF => rw [hlat, hlng] at hf; exact Option.noConfusion hf
      | some latF =>
        cases hlng : PyStr.pyFloat? (PyStr.strip ((m.lng).getD "")) with
        | none => rw [hlat, hlng] at hf; exact Option.noConfusion hf
        | some lngF =>
          rw [hlat, hlng] at hf
          dsimp only at hf
          by_cases hb : DecVal.le (DecVal.ofInt (-90)) latF ∧ DecVal.le latF (DecVal.ofInt 90)
              ∧ DecVal.le (DecVal.ofInt (-180)) lngF ∧ DecVal.le lngF (DecVal.ofInt 180)
          · rw [if_pos hb] at hf
            injection hf with hf
            subst hf
            exact hb
          · rw [if_neg hb] at hf
            exact Option.noConfusion hf
  · intro stores
    simp [Ahorramas.extract_supermarkets]

/-- C8 witness: a marker at (40.5, -3.25) survives carrefour extraction and
its surviving row indeed satisfies the geographic bounds. -/
theorem store_bounds_validation_witness :
    DecVal.le (DecVal.ofInt (-90)) (⟨405, 1⟩ : DecVal)
    ∧ DecVal.le (⟨405, 1⟩ : DecVal) (DecVal.ofInt 90)
    ∧ DecVal.le (DecVal.ofInt (-180)) (⟨-325, 2⟩ : DecVal)
    ∧ DecVal.le (⟨-325, 2⟩ : DecVal) (DecVal.ofInt 180) := by
  have h := store_bounds_validation.1 (fun _ _ => "f")
    [{ lat := some "40.5", lng := some "-3.25", codsa := some "a", codat := none,
       tcm := none, idAttr := none, address := none, address2 := none, postal := none,
       city := none, state := none, hours1 := none, hours2 := none, name := some "n",
       category := none }]
    { store_id := "a", address := "", schedule := "", holidays := "",
      latitude := ⟨405, 1⟩, longitude := ⟨-325, 2⟩, name := "n", category := "" }
    (by decide)
  exact h

/-- C8, counterexample to the claim as stated: the ahorramas extraction keeps
a store whose latitude 95 lies outside [-90, 90]; the record is not dropped. -/
theorem ahorramas_keeps_out_of_range_latitude :
    Ahorramas.extract_supermarkets
        [{ codtda := "001", direccion := "c. Mayor 1", horario := "", festivos := "",
           latitude := ⟨95, 0⟩, longitude := ⟨0, 0⟩ }]
      = [{ store_id := "001", address := "c. Mayor 1", schedule := "", holidays := "",
           latitude := ⟨95, 0⟩, longitude := ⟨0, 0⟩ }]
    ∧ ¬ DecVal.le (⟨95, 0⟩ : DecVal) (DecVal.ofInt 90) := ⟨rfl, by decide⟩

/-- Helper: setting a hash field makes it read back as the set value. -/
theorem getField_setField_self :
    ∀ (fields : List (String × String)) (k v : String),
      Utils.getField (Utils.setField fields k v) k = some v := by
  intro fields
  induction fields with
  | nil =>
    intro k v
    simp [Utils.setField, Utils.getField]
  | cons p rest ih =>
    intro k v
    obtain ⟨k2, v2⟩ := p
    rw [Utils.setField]
    by_cases hk : k2 = k
    · rw [if_pos hk]
      simp [Utils.getField]
    · rw [if_neg hk]
      unfold Utils.getField at ih ⊢
      rw [List.find?_cons_of_neg _ (by simpa using hk)]
      exact ih k v

/-- C10, confirmed.  With the cache key present: when the stored html field is
missing or empty, fetch_html_content does not serve the cache — it performs
the network fetch (here succeeding on the first attempt), stores
{url, html} under the key, returns the fetched content and has made exactly
one network call, and the overwritten entry then carries the fetched html;
when the stored html field is non-empty, the cached value is returned
unchanged with zero network calls. -/
theorem cache_hit_requires_nonempty_html (q md5 prettify : String → String)
    (net : Nat → Utils.NetResult) (url : String) (params : List (String × String))
    (retries : Nat) (cache : Utils.Cache) (fields : List (String × String)) (body : String)
    (hkey : cache (Utils.redisKeyOf q md5 url params) = some fields) :
    ((Utils.getField fields "html" = none ∨ Utils.getField fields "html" = some "") →
      net 0 = .ok body → 0 < retries →
      Utils.fetch_html_content q md5 prettify net url params retries cache
        = (.ok (prettify body,
            Utils.hset cache (Utils.redisKeyOf q md5 url params)
              [("url", Utils.build_full_url q url params), ("html", prettify body)]), 1)
      ∧ Utils.getField
          (((Utils.hset cache (Utils.redisKeyOf q md5 url params)
              [("url", Utils.build_full_url q url params), ("html", prettify body)])
            (Utils.redisKeyOf q md5 url params)).getD []) "html"
        = some (prettify body))
    ∧ (∀ h, Utils.getField fields "html" = some h → h ≠ "" →
        Utils.fetch_html_content q md5 prettify net url params retries cache
          = (.ok (h, cache), 0)) := by
  have hkey2 : cache ("urls:" ++ md5 (Utils.build_full_url q url params)) = some fields := hkey
  constructor
  · intro hmiss hnet hret
    obtain ⟨rr, rfl⟩ : ∃ rr, retries = rr + 1 := ⟨retries - 1, by omega⟩
    have hloop : Utils.fetch_attempts prettify net (Utils.build_full_url q url params)
        ("urls:" ++ md5 (Utils.build_full_url q url params)) cache 0 (rr + 1)
        = (.ok (prettify body,
            Utils.hset cache ("urls:" ++ md5 (Utils.build_full_url q url params))
              [("url", Utils.build_full_url q url params), ("html", prettify body)]), 1) := by
      rw [Utils.fetch_attempts, hnet]
    constructor
    · show Utils.fetch_html_content q md5 prettify net url params (rr + 1) cache
        = (.ok (prettify body,
            Utils.hset cache ("urls:" ++ md5 (Utils.build_full_url q url params))
              [("url", Utils.build_full_url q url params), ("html", prettify body)]), 1)
      unfold Utils.fetch_html_content
      dsimp only
      rw [hkey2]
      dsimp only
      rcases hmiss with hm | hm
      · rw [hm]
        exact hloop
      · rw [hm]
        simp only [ne_eq, not_true_eq_false, if_false]
        exact hloop
    · show Utils.getField
          (((Utils.hset cache ("urls:" ++ md5 (Utils.build_full_url q url params))
              [("url", Utils.build_full_url q url params), ("html", prettify body)])
            ("urls:" ++ md5 (Utils.build_full_url q url params))).getD []) "html"
        = some (prettify body)
      unfold Utils.hset
      rw [if_pos rfl, hkey2]
      exact getField_setField_self _ "html" (prettify body)
  · intro h hsome hne
    unfold Utils.fetch_html_content
    dsimp only
    rw [hkey2]
    dsimp only
    rw [hsome]
    dsimp only
    rw [if_pos hne]

/-- C10 witness: a cache entry whose html field is the empty string is not
served — the network is fetched once, the entry is overwritten and the fetched
content is returned. -/
theorem cache_hit_requires_nonempty_html_witness :
    Utils.fetch_html_content id id id (fun _ => .ok "BODY") "https://x.example/s" [] 5
        (fun k => if k = "urls:https://x.example/s"
          then some [("url", "https://x.example/s"), ("html", "")] else none)
      = (.ok ("BODY",
          Utils.hset
            (fun k => if k = "urls:https://x.example/s"
              then some [("url", "https://x.example/s"), ("html", "")] else none)
            (Utils.redisKeyOf id id "https://x.example/s" [])
            [("url", Utils.build_full_url id "https://x.example/s" []), ("html", "BODY")]),
         1) := by
  have h := cache_hit_requires_nonempty_html id id id (fun _ => .ok "BODY")
    "https://x.example/s" [] 5
    (fun k => if k = "urls:https://x.example/s"
      then some [("url", "https://x.example/s"), ("html", "")] else none)
    [("url", "https://x.example/s"), ("html", "")] "BODY" (by decide)
  exact (h.1 (Or.inr (by decide)) rfl (by decide)).1
